import Mathlib

/-!
# Verification of the commit-to-post pipeline of `test-img-blog-generator`

Shallow embedding of the three generator variants found in the repository
(the gallery-with-posts variant, the blog variant of `generate-blog.js`, and
the flat-gallery variant) together with the string-processing helpers
(`escapeHTML`, `processContent`, the extension classifier).

Modelling conventions:
* JavaScript strings are Lean `String`s; the regex-free JS string operations
  (`split('\n')[0]`, `substring(0, 7)`, `startsWith`, `toLowerCase`, `trim`)
  are modelled by executable functions on the character list of the string
  (`jsTake`, `jsStartsWith`, `jsToLower` with ASCII case folding — the
  markers involved are ASCII — and `jsTrim`).
* The regex operations `split(/\n\n+/)` and `replace(/x/g, y)` are modelled by
  executable functions on the character list of the string (`splitNNCL`,
  `replList`), faithful to the leftmost-greedy semantics of the JS regexes.
* External I/O (git log, git diff, the filesystem, EXIF parsing, image-size
  probing, locale date formatting) is passed in explicitly through an `Env` of
  oracles; a throwing call is an `Except.error` outcome, so the `try/catch`
  blocks of the source become `match` on the outcome.  The `console.log`
  statements and the fatal `process.exit(1)` wrapper around `getCommits`
  (which only fires when the log itself cannot be read) carry no data and are
  not part of the data path modelled here.
-/

namespace ImgBlog

/-- A commit record as produced by the version-control reader (`git.log`):
hash, author name/email, date string, message, and message body. -/
structure Commit where
  hash : String
  author_name : String
  author_email : String
  date : String
  message : String
  body : String
deriving DecidableEq

/-- JS `s.toLowerCase()` (ASCII case folding). -/
def jsToLower (s : String) : String :=
  String.mk (s.data.map Char.toLower)

/-- JS `s.startsWith(pre)`. -/
def jsStartsWith (s pre : String) : Bool :=
  pre.data.isPrefixOf s.data

/-- JS `s.substring(0, n)`. -/
def jsTake (s : String) (n : Nat) : String :=
  String.mk (s.data.take n)

/-- The title of a commit: `commit.message.split('\n')[0]` in the source,
i.e. the prefix of the message before its first line break. -/
def titleOf (c : Commit) : String :=
  String.mk (c.message.data.takeWhile (fun ch => ch ≠ '\n'))

/-- The `[ignore]` filter shared by all three variants
(`generate-blog.js` lines 34-37 and 310-313, `part_000` lines 32-35):
keep a commit unless `title.toLowerCase().startsWith('[ignore]')`. -/
def filterIgnored (log : List Commit) : List Commit :=
  log.filter (fun commit => !(jsStartsWith (jsToLower (titleOf commit)) "[ignore]"))

/-- Model of Node's `path.extname` (posix): the substring of the last path
component from its last dot, or the empty string when the component has no
dot, when its only leading character is the dot, or when it is exactly `..`. -/
def extname (p : String) : String :=
  let noSlash := (p.data.reverse.dropWhile (fun c => c == '/')).reverse
  let base := (noSlash.reverse.takeWhile (fun c => c != '/')).reverse
  if base = ['.', '.'] then ""
  else
    match base.reverse.findIdx? (fun c => c == '.') with
    | none => ""
    | some k =>
      if base.length - 1 - k = 0 then ""
      else String.mk (base.drop (base.length - 1 - k))

/-- The fixed extension allow-list of `getCommitImages`. -/
def imageExtensions : List String :=
  [".png", ".jpg", ".jpeg", ".gif", ".webp", ".svg", ".bmp"]

/-- One entry of `diffSummary.files`; only its `.file` path is consumed. -/
structure DiffFile where
  file : String
deriving DecidableEq

/-- `getCommitImages` (identical in all three variants): on a successful
`git.diffSummary([hash^, hash])` keep the files whose lowercased extension is
in the allow-list; on any thrown error (e.g. a root commit with no parent)
return the empty list after logging.  Total by construction: the JS `catch`
means no error reaches the caller. -/
def getCommitImages (diffResult : Except String (List DiffFile)) : List String :=
  match diffResult with
  | Except.ok diffSummary =>
    (diffSummary.filter
      (fun file => imageExtensions.contains (jsToLower (extname file.file)))).map
      (fun file => file.file)
  | Except.error _ => []

/-- The pure classifier at the heart of `getCommitImages`, on bare paths:
the sub-list whose lowercased extension is in the allow-list. -/
def classifyImages (paths : List String) : List String :=
  paths.filter (fun p => imageExtensions.contains (jsToLower (extname p)))

/-- Outcome of the filesystem/metadata probes for one image path:
whether `fs.existsSync` holds, the outcome of EXIF parsing (error, or the
optional `tags.ImageDescription`), and the outcome of `image-size`. -/
structure ImageFileOutcome where
  fileExists : Bool
  exifDescription : Except String (Option String)
  size : Except String (Nat × Nat)

/-- `getImageCaption`: `null` when the file is missing; `null` when EXIF
parsing throws; otherwise `result.tags?.ImageDescription || null` (so a
missing or empty description is `null`).  Total by construction. -/
def getImageCaption (f : ImageFileOutcome) : Option String :=
  if f.fileExists then
    match f.exifDescription with
    | Except.ok (some d) => if d = "" then none else some d
    | Except.ok none => none
    | Except.error _ => none
  else none

/-- `getImageDimensions`: the default square `(800, 800)` when the file is
missing or `image-size` throws, else the probed dimensions.  Total by
construction. -/
def getImageDimensions (f : ImageFileOutcome) : Nat × Nat :=
  if f.fileExists then
    match f.size with
    | Except.ok d => d
    | Except.error _ => (800, 800)
  else (800, 800)

/-- The external world of one generator run: per-commit diff outcomes,
per-path file probe outcomes, and the locale date formatter. -/
structure Env where
  diff : String → Except String (List DiffFile)
  file : String → ImageFileOutcome
  fmtDate : String → String

/-- An image record of the gallery-with-posts variant
(`generate-blog.js` lines 49-57). -/
structure GalleryImage where
  path : String
  caption : Option String
  width : Nat
  height : Nat
deriving DecidableEq

/-- A post of the gallery-with-posts variant (`generate-blog.js` lines 59-73). -/
structure GalleryPost where
  hash : String
  title : String
  author : String
  date : String
  images : List GalleryImage
deriving DecidableEq

/-- The image record built per path (`generate-blog.js` lines 49-57). -/
def mkGalleryImage (env : Env) (imagePath : String) : GalleryImage :=
  { path := imagePath,
    caption := getImageCaption (env.file imagePath),
    width := (getImageDimensions (env.file imagePath)).1,
    height := (getImageDimensions (env.file imagePath)).2 }

/-- The post record pushed for one commit (`generate-blog.js` lines 59-73). -/
def mkGalleryPost (env : Env) (c : Commit) (imagePaths : List String) : GalleryPost :=
  { hash := jsTake c.hash 7,
    title := titleOf c,
    author := c.author_name,
    date := env.fmtDate c.date,
    images := imagePaths.map (mkGalleryImage env) }

/-- `getCommits` of the gallery-with-posts variant (`generate-blog.js`
lines 33-76): filter `[ignore]`, then for each surviving commit fetch its
image paths and skip the commit when `imagePaths.length === 0`. -/
def assembleGallery (env : Env) (log : List Commit) : List GalleryPost :=
  (filterIgnored log).filterMap (fun commit =>
    let imagePaths := getCommitImages (env.diff commit.hash)
    if imagePaths.length = 0 then none
    else some (mkGalleryPost env commit imagePaths))

/-- A post of the blog variant (`generate-blog.js` lines 321-337). -/
structure BlogPost where
  hash : String
  author : String
  email : String
  date : String
  title : String
  content : String
  images : List String
deriving DecidableEq

/-- The post record of the blog variant for one commit (`generate-blog.js`
lines 321-337): `content` is `commit.body || commit.message.split('\n')[0]`. -/
def mkBlogPost (env : Env) (c : Commit) : BlogPost :=
  { hash := jsTake c.hash 7,
    author := c.author_name,
    email := c.author_email,
    date := env.fmtDate c.date,
    title := titleOf c,
    content := if c.body = "" then titleOf c else c.body,
    images := getCommitImages (env.diff c.hash) }

/-- `getCommits` of the blog variant (`generate-blog.js` lines 309-341):
filter `[ignore]`, then `Promise.all(filteredCommits.map(...))`, which
resolves to the records in the order of `filteredCommits` regardless of
completion order; no zero-image skip exists in this variant. -/
def assembleBlog (env : Env) (log : List Commit) : List BlogPost :=
  (filterIgnored log).map (mkBlogPost env)

/-- A flat gallery entry (`part_000` lines 43-60). -/
structure FlatImage where
  path : String
  hash : String
  title : String
  caption : Option String
  author : String
  date : String
deriving DecidableEq

/-- `getCommits` of the flat-gallery variant (`part_000` lines 31-64):
filter `[ignore]`, then push one entry per classified image of each commit. -/
def assembleFlat (env : Env) (log : List Commit) : List FlatImage :=
  (filterIgnored log).flatMap (fun commit =>
    (getCommitImages (env.diff commit.hash)).map (fun imagePath =>
      { path := imagePath,
        hash := jsTake commit.hash 7,
        title := titleOf commit,
        caption := getImageCaption (env.file imagePath),
        author := commit.author_name,
        date := env.fmtDate commit.date }))

/-! ## String machinery: `replace(/x/g, y)`, `split(/\n\n+/)`, `trim` -/

/-- Global replacement of one character by a string on character lists: the
semantics of JS `String.prototype.replace` with a global single-character
pattern (every pattern occurring in the source — `/&/g`, `/</g`, `/>/g`,
`/"/g`, `/'/g`, `/\n/g` — is a single character). -/
def replList (p : Char) (repl : List Char) : List Char → List Char
  | [] => []
  | c :: rest => (if c = p then repl else [c]) ++ replList p repl rest

/-- JS `s.replace(/pat/g, repl)` for the single-character patterns used in
the source; other patterns do not occur. -/
def jsReplaceAll (s pat repl : String) : String :=
  match pat.data with
  | [p] => String.mk (replList p repl.data s.data)
  | _ => s

/-- Drop a leading run of line breaks (the greedy tail of a `\n\n+` match). -/
def skipNL : List Char → List Char
  | [] => []
  | c :: rest => if c = '\n' then skipNL rest else c :: rest

theorem skipNL_length_le (l : List Char) : (skipNL l).length ≤ l.length := by
  induction l with
  | nil => simp [skipNL]
  | cons c rest ih =>
    simp only [skipNL]
    split
    · exact Nat.le_trans ih (Nat.le_succ _)
    · simp

/-- Splitting on `/\n\n+/` (JS `content.split(/\n\n+/)`): cut at each
leftmost occurrence of two line breaks, greedily consuming any further
line breaks, accumulating the current segment in reverse.  The first
argument is fuel (structural recursion); it never runs out when it starts
at the length of the scanned list. -/
def splitNNF : Nat → List Char → List Char → List (List Char)
  | _, [], acc => [acc.reverse]
  | 0, l, acc => [acc.reverse ++ l]
  | fuel + 1, c :: rest, acc =>
    if c = '\n' then
      match rest with
      | c2 :: rest2 =>
        if c2 = '\n' then acc.reverse :: splitNNF fuel (skipNL rest2) []
        else splitNNF fuel (c2 :: rest2) (c :: acc)
      | [] => [(c :: acc).reverse]
    else splitNNF fuel rest (c :: acc)

/-- JS `content.split(/\n\n+/)` on strings. -/
def jsSplitNN (content : String) : List String :=
  (splitNNF content.data.length content.data []).map String.mk

/-- The whitespace class trimmed by `trim` (ASCII subset of the JS class). -/
def isWsChar (c : Char) : Bool :=
  c == ' ' || c == '\t' || c == '\n' || c == '\r'

/-- `String.prototype.trim` on character lists. -/
def trimCL (l : List Char) : List Char :=
  ((l.dropWhile isWsChar).reverse.dropWhile isWsChar).reverse

/-- JS `s.trim()`. -/
def jsTrim (s : String) : String :=
  String.mk (trimCL s.data)

/-! ## `escapeHTML` and `processContent` (`generate-blog.js` lines 590-615) -/

/-- The apostrophe character, written by code point. -/
def apos : Char := Char.ofNat 39

/-- `escapeHTML(str)`: the empty string for a falsy argument (`null`,
`undefined`, or `""`, modelled as `none` / `some ""`), otherwise the chain of
five global replacements in source order (`&` first). -/
def escapeHTML (str : Option String) : String :=
  match str with
  | none => ""
  | some s =>
    if s = "" then ""
    else
      jsReplaceAll
        (jsReplaceAll
          (jsReplaceAll
            (jsReplaceAll
              (jsReplaceAll s "&" "&amp;")
              "<" "&lt;")
            ">" "&gt;")
          "\"" "&quot;")
        (String.mk [apos]) "&#039;"

/-- `processContent(content)` (`generate-blog.js` lines 601-615): empty for a
falsy argument; otherwise split on `/\n\n+/`, collapse `\n` to spaces and trim
inside each paragraph, wrap non-empty paragraphs in `<p>` with escaping, drop
the empty ones, and join. -/
def processContent (content : String) : String :=
  if content = "" then ""
  else
    let paragraphs := jsSplitNN content
    String.join
      (((paragraphs.map (fun para =>
          let text := jsTrim (jsReplaceAll para "\n" " ")
          if text = "" then "" else "<p>" ++ escapeHTML (some text) ++ "</p>")).filter
        (fun p => p ≠ "")))

/-- The paragraph texts computed inside `processContent` (line 610): the
trimmed newline-collapsed segments that are non-empty after trimming. -/
def paragraphTexts (content : String) : List String :=
  ((jsSplitNN content).map
    (fun para => jsTrim (jsReplaceAll para "\n" " "))).filter (fun t => t ≠ "")

/-- Does a character list contain two adjacent line breaks (i.e. can the
`/\n\n+/` paragraph separator match anywhere)? -/
def hasNN : List Char → Bool
  | c1 :: c2 :: rest => (c1 = '\n' && c2 = '\n') || hasNN (c2 :: rest)
  | _ => false

/-! ## The blog-variant renderer (`generate-blog.js` lines 370-400) -/

/-- The `<div class="image-item">` fragment for one image of a post
(`generate-blog.js` lines 388-394): `href` and `src` both insert
`escapeHTML(image)`. -/
def imageItemHTML (image : String) : String :=
  "\n        <div class=\"image-item\">\n          <a href=\"" ++
    escapeHTML (some image) ++
    "\" target=\"_blank\">\n            <img src=\"" ++
    escapeHTML (some image) ++
    "\" alt=\"Image from commit\" loading=\"lazy\" />\n          </a>\n        </div>\n        "

/-- The `<article>` fragment for one post (`generate-blog.js` lines 373-398):
title and author inserted through `escapeHTML`, content through
`processContent`, the image grid only when `commit.images.length > 0`
(a JS array itself is always truthy). -/
def postArticleHTML (commit : BlogPost) : String :=
  "\n    <article class=\"post\">\n      <header>\n        <h2>" ++
    escapeHTML (some commit.title) ++
    "</h2>\n        <div class=\"meta\">\n          <span class=\"author\">" ++
    escapeHTML (some commit.author) ++
    "</span>\n          <span class=\"date\">" ++ commit.date ++
    "</span>\n          <span class=\"commit\">#" ++ commit.hash ++
    "</span>\n        </div>\n      </header>\n      <div class=\"content\">\n        " ++
    processContent commit.content ++
    "\n      </div>\n      " ++
    (if 0 < commit.images.length then
      "\n      <div class=\"image-grid\">\n        " ++
        String.join (commit.images.map imageItemHTML) ++
        "\n      </div>\n      "
    else "") ++
    "\n    </article>\n  "

/-- `postsHTML` (`generate-blog.js` lines 371-400): the article fragments
joined with a line break. -/
def postsHTML (commits : List BlogPost) : String :=
  String.intercalate "\n" (commits.map postArticleHTML)

/-- The image-item fragment with an already-escaped path inserted verbatim
(used to state that `imageItemHTML` factors through `escapeHTML`). -/
def imageItemTemplate (escapedImage : String) : String :=
  "\n        <div class=\"image-item\">\n          <a href=\"" ++
    escapedImage ++
    "\" target=\"_blank\">\n            <img src=\"" ++
    escapedImage ++
    "\" alt=\"Image from commit\" loading=\"lazy\" />\n          </a>\n        </div>\n        "

/-- The article fragment with already-escaped/processed values inserted
verbatim (used to state that `postArticleHTML` factors through `escapeHTML`
and `processContent`). -/
def postArticleTemplate (title author date hash content : String)
    (imgs : List String) : String :=
  "\n    <article class=\"post\">\n      <header>\n        <h2>" ++
    title ++
    "</h2>\n        <div class=\"meta\">\n          <span class=\"author\">" ++
    author ++
    "</span>\n          <span class=\"date\">" ++ date ++
    "</span>\n          <span class=\"commit\">#" ++ hash ++
    "</span>\n        </div>\n      </header>\n      <div class=\"content\">\n        " ++
    content ++
    "\n      </div>\n      " ++
    (if 0 < imgs.length then
      "\n      <div class=\"image-grid\">\n        " ++
        String.join (imgs.map imageItemTemplate) ++
        "\n      </div>\n      "
    else "") ++
    "\n    </article>\n  "

/-! ## Concrete fixtures used by witnesses and counterexamples -/

/-- A benign probe outcome: file present, no EXIF description, 100×50. -/
def outcomeOk : ImageFileOutcome :=
  { fileExists := true, exifDescription := Except.ok none, size := Except.ok (100, 50) }

/-- Probe outcome of a missing file. -/
def fMissing : ImageFileOutcome :=
  { fileExists := false, exifDescription := Except.ok (some "d"), size := Except.ok (3, 4) }

/-- Probe outcome of an unreadable file: both probes throw. -/
def fBadExif : ImageFileOutcome :=
  { fileExists := true, exifDescription := Except.error "boom", size := Except.error "boom" }

/-- An environment in which every commit diff holds the single file `a.png`. -/
def envPng : Env :=
  { diff := fun _ => Except.ok [{ file := "a.png" }],
    file := fun _ => outcomeOk,
    fmtDate := fun d => d }

/-- An environment in which every commit diff is empty. -/
def envNoImages : Env :=
  { diff := fun _ => Except.ok [],
    file := fun _ => outcomeOk,
    fmtDate := fun d => d }

/-- A commit whose title carries the skip marker behind leading whitespace. -/
def cLead : Commit :=
  { hash := "abc123def4567", author_name := "Ann", author_email := "a@b.c",
    date := "2024-01-01", message := " [ignore] pic", body := "" }

/-- An ordinary commit. -/
def cGood : Commit :=
  { hash := "1234567890abc", author_name := "Bob", author_email := "b@c.d",
    date := "2024-01-02", message := "hello\nworld", body := "world" }

/-- An ordinary commit whose diff (under `envNoImages`) holds no image. -/
def cNoImg : Commit :=
  { hash := "feedbeef12345", author_name := "Cyd", author_email := "c@d.e",
    date := "2024-01-03", message := "note", body := "" }

/-- A commit with a non-empty message whose first line is empty. -/
def cNL : Commit :=
  { hash := "0011223344556", author_name := "Dee", author_email := "d@e.f",
    date := "2024-01-04", message := "\nX", body := "" }

/-- Per-character entity encoding of the five reserved HTML characters
(the specification-side description of `escapeHTML`). -/
def escChar (c : Char) : String :=
  if c = '&' then "&amp;"
  else if c = '<' then "&lt;"
  else if c = '>' then "&gt;"
  else if c = '"' then "&quot;"
  else if c = apos then "&#039;"
  else String.mk [c]

/-- Specification-side `escapeHTML`: encode every character independently. -/
def escapeHTMLSpec (s : String) : String :=
  String.join (s.data.map escChar)

/-! ## Helper lemmas -/

theorem filterMap_map_sublist_map (f : α → Option β) (g : β → γ) (k : α → γ)
    (h : ∀ a b, f a = some b → g b = k a) :
    ∀ l : List α, ((l.filterMap f).map g).Sublist (l.map k) := by
  intro l
  induction l with
  | nil => simp
  | cons a l ih =>
    rcases hfa : f a with _ | b
    · simpa [List.filterMap_cons, hfa] using ih.cons (k a)
    · simpa [List.filterMap_cons, hfa, h a b hfa] using ih.cons₂ (k a)

/-! ## C4: `getCommitImages` degrades every diff failure to an empty list -/

/-- **C4.** For every commit hash, the changed-files operation either returns
(a sub-list of) the diffed file set or, on any failure to produce a diff
(including a root commit with no parent, whose `diffSummary` call throws),
returns the empty list; it is a total function, so no error reaches its
caller and the run is never aborted. -/
theorem claim_C4 :
    (∀ e, getCommitImages (Except.error e) = []) ∧
    (∀ files, (getCommitImages (Except.ok files)).Sublist (files.map DiffFile.file)) := by
  constructor
  · intro e
    rfl
  · intro files
    exact List.Sublist.map DiffFile.file (List.filter_sublist files)

/-! ## C5: caption and dimensions never raise and degrade to `none`/(800, 800) -/

/-- **C5.** The caption operation returns `none` rather than raising when the
file is missing, when EXIF parsing throws (unreadable file), or when the
parsed data lacks a description field; the dimensions operation returns the
fixed fallback `(800, 800)` when the file is missing or the size probe
throws.  Both are total functions of the probe outcome, so neither ever
raises to its caller. -/
theorem claim_C5 (f : ImageFileOutcome) :
    (f.fileExists = false → getImageCaption f = none ∧ getImageDimensions f = (800, 800)) ∧
    (∀ e, f.exifDescription = Except.error e → getImageCaption f = none) ∧
    (f.exifDescription = Except.ok none → getImageCaption f = none) ∧
    (∀ e, f.size = Except.error e → getImageDimensions f = (800, 800)) := by
  obtain ⟨ex, exif, sz⟩ := f
  refine ⟨fun h => ?_, fun e he => ?_, fun he => ?_, fun e he => ?_⟩
  · simp only at h
    simp [getImageCaption, getImageDimensions, h]
  · simp only at he
    simp [getImageCaption, he]
  · simp only at he
    simp [getImageCaption, he]
  · simp only at he
    simp [getImageDimensions, he]

/-- Witness for C5 at the concrete outcomes `fMissing` and `fBadExif`. -/
theorem claim_C5_witness :
    fMissing.fileExists = false ∧
    getImageCaption fMissing = none ∧ getImageDimensions fMissing = (800, 800) ∧
    fBadExif.exifDescription = Except.error "boom" ∧ getImageCaption fBadExif = none ∧
    fBadExif.size = Except.error "boom" ∧ getImageDimensions fBadExif = (800, 800) :=
  ⟨rfl, ((claim_C5 fMissing).1 rfl).1, ((claim_C5 fMissing).1 rfl).2, rfl,
   (claim_C5 fBadExif).2.1 "boom" rfl, rfl, (claim_C5 fBadExif).2.2.2 "boom" rfl⟩

/-! ## C6: the image classifier is a pure order-preserving filter -/

/-- **C6.** The image classifier is a pure function (a Lean `def` with no
effects): it returns exactly the sub-list (order-preserving, duplicate-
preserving) of paths whose lowercased extension is in the fixed allow-list,
and it is exactly the computation `getCommitImages` runs on a successful
diff. -/
theorem claim_C6 :
    (∀ paths, (classifyImages paths).Sublist paths) ∧
    (∀ paths p, p ∈ classifyImages paths ↔
      p ∈ paths ∧ jsToLower (extname p) ∈ imageExtensions) ∧
    (∀ files, getCommitImages (Except.ok files) = classifyImages (files.map DiffFile.file)) := by
  refine ⟨fun paths => List.filter_sublist paths, fun paths p => ?_, fun files => ?_⟩
  · simp [classifyImages, List.mem_filter]
  · simp only [getCommitImages, classifyImages, List.filter_map, Function.comp_def]

/-! ## C7: output order is a subsequence of input commit order -/

/-- **C7.** In both variants of `generate-blog.js` the assembled sequence
preserves the relative input order of the commits: the short hashes of the
output posts form a sub-list (in order) of the short hashes of the input
log.  Fetch outcomes enter only through the deterministic `env` oracle: the
blog variant's `Promise.all` resolves to the `map` of the filtered list, so
completion order cannot reorder the result. -/
theorem claim_C7 (env : Env) (log : List Commit) :
    ((assembleGallery env log).map GalleryPost.hash).Sublist
      (log.map (fun c => jsTake c.hash 7)) ∧
    ((assembleBlog env log).map BlogPost.hash).Sublist
      (log.map (fun c => jsTake c.hash 7)) := by
  constructor
  · have hfl : (filterIgnored log).Sublist log := List.filter_sublist log
    refine List.Sublist.trans ?_
      (List.Sublist.map (fun c => jsTake c.hash 7) hfl)
    refine filterMap_map_sublist_map _ GalleryPost.hash (fun c => jsTake c.hash 7)
      (fun a b hb => ?_) (filterIgnored log)
    simp only at hb
    split at hb
    · exact absurd hb (by simp)
    · cases hb
      rfl
  · have hmap : (assembleBlog env log).map BlogPost.hash
        = (filterIgnored log).map (fun c => jsTake c.hash 7) := by
      rw [assembleBlog, List.map_map]
      rfl
    rw [hmap]
    exact List.Sublist.map (fun c => jsTake c.hash 7) (List.filter_sublist log)

/-! ## C1: the `[ignore]` filter (no trimming happens in the code) -/

/-- **C1 counterexample.** The claim says a commit whose title starts with
the marker *after trimming* is excluded.  The code does not trim: the commit
`cLead`, whose title is `" [ignore] pic"`, matches the marker after trimming
and case folding, yet it survives the filter and contributes a post (gallery
variant) and an image entry (flat variant). -/
theorem claim_C1_counterexample :
    jsStartsWith (jsToLower (jsTrim (titleOf cLead))) "[ignore]" = true ∧
    (assembleGallery envPng [cLead]).length = 1 ∧
    (assembleFlat envPng [cLead]).length = 1 := by
  decide

/-- **C1 (amended).** A commit is excluded iff its case-folded title starts
with `"[ignore]"` *without* any whitespace trimming; every assembled entry
of any variant stems from a commit whose untrimmed case-folded title does
not start with the marker, and all other commits pass the filter. -/
theorem claim_C1_amended (log : List Commit) :
    (∀ c, c ∈ filterIgnored log ↔
      c ∈ log ∧ jsStartsWith (jsToLower (titleOf c)) "[ignore]" = false) ∧
    (∀ env p, p ∈ assembleGallery env log →
      ∃ c, c ∈ log ∧ jsStartsWith (jsToLower (titleOf c)) "[ignore]" = false ∧
        p.title = titleOf c ∧ p.hash = jsTake c.hash 7) ∧
    (∀ env e, e ∈ assembleFlat env log →
      ∃ c, c ∈ log ∧ jsStartsWith (jsToLower (titleOf c)) "[ignore]" = false ∧
        e.title = titleOf c ∧ e.hash = jsTake c.hash 7) ∧
    (∀ env p, p ∈ assembleBlog env log →
      ∃ c, c ∈ log ∧ jsStartsWith (jsToLower (titleOf c)) "[ignore]" = false ∧
        p.title = titleOf c ∧ p.hash = jsTake c.hash 7) := by
  have hmem : ∀ c, c ∈ filterIgnored log ↔
      c ∈ log ∧ jsStartsWith (jsToLower (titleOf c)) "[ignore]" = false := by
    intro c
    simp [filterIgnored, List.mem_filter]
  refine ⟨hmem, fun env p hp => ?_, fun env e he => ?_, fun env p hp => ?_⟩
  · rw [assembleGallery] at hp
    obtain ⟨c, hc, hfc⟩ := List.mem_filterMap.mp hp
    obtain ⟨hcl, hpr⟩ := (hmem c).mp hc
    refine ⟨c, hcl, hpr, ?_, ?_⟩ <;>
      · simp only at hfc
        split at hfc
        · exact absurd hfc (by simp)
        · cases hfc
          rfl
  · rw [assembleFlat] at he
    obtain ⟨c, hc, hin⟩ := List.mem_flatMap.mp he
    obtain ⟨hcl, hpr⟩ := (hmem c).mp hc
    obtain ⟨path, _, hrec⟩ := List.mem_map.mp hin
    cases hrec
    exact ⟨c, hcl, hpr, rfl, rfl⟩
  · rw [assembleBlog] at hp
    obtain ⟨c, hc, hrec⟩ := List.mem_map.mp hp
    obtain ⟨hcl, hpr⟩ := (hmem c).mp hc
    cases hrec
    exact ⟨c, hcl, hpr, rfl, rfl⟩

/-- Witness for C1 (amended) at a concrete commit and environment. -/
theorem claim_C1_witness :
    ∃ c, c ∈ [cGood] ∧ jsStartsWith (jsToLower (titleOf c)) "[ignore]" = false ∧
      (mkGalleryPost envPng cGood ["a.png"]).title = titleOf c ∧
      (mkGalleryPost envPng cGood ["a.png"]).hash = jsTake c.hash 7 :=
  (claim_C1_amended [cGood]).2.1 envPng (mkGalleryPost envPng cGood ["a.png"]) (by decide)

/-! ## C2: zero-image commits (dropped in the galleries, kept in the blog) -/

/-- **C2 counterexample.** In the blog variant a commit that survives the
ignore filter but has no classified image still produces a post: with an
empty diff, `cNoImg` yields one `BlogPost` whose image list is empty,
contradicting "produces no post ... in every generator variant". -/
theorem claim_C2_counterexample :
    getCommitImages (envNoImages.diff cNoImg.hash) = [] ∧
    (assembleBlog envNoImages [cNoImg]).length = 1 ∧
    (assembleBlog envNoImages [cNoImg]).map BlogPost.images = [[]] := by
  decide

/-- **C2 (amended).** A surviving commit with no classified image produces
no post in the gallery-with-posts variant (every gallery post has a
non-empty image list, and such a commit drops out entirely) and no entry in
the flat-gallery variant; in the blog variant, however, it still produces a
post — one with an empty image list, hence no image entries. -/
theorem claim_C2_amended (env : Env) :
    (∀ log p, p ∈ assembleGallery env log → p.images ≠ []) ∧
    (∀ c rest, getCommitImages (env.diff c.hash) = [] →
      assembleGallery env (c :: rest) = assembleGallery env rest) ∧
    (∀ c rest, getCommitImages (env.diff c.hash) = [] →
      assembleFlat env (c :: rest) = assembleFlat env rest) ∧
    (∀ c rest, getCommitImages (env.diff c.hash) = [] →
      jsStartsWith (jsToLower (titleOf c)) "[ignore]" = false →
      assembleBlog env (c :: rest) = mkBlogPost env c :: assembleBlog env rest ∧
        (mkBlogPost env c).images = []) := by
  refine ⟨fun log p hp => ?_, fun c rest h => ?_, fun c rest h => ?_,
    fun c rest h h2 => ?_⟩
  · rw [assembleGallery] at hp
    obtain ⟨c, _, hfc⟩ := List.mem_filterMap.mp hp
    simp only at hfc
    split at hfc
    · exact absurd hfc (by simp)
    · rename_i hlen
      cases hfc
      simp only [mkGalleryPost, ne_eq, List.map_eq_nil_iff]
      intro hnil
      exact hlen (by rw [hnil]; rfl)
  · simp only [assembleGallery, filterIgnored, List.filter_cons]
    split
    · simp [List.filterMap_cons, h]
    · rfl
  · simp only [assembleFlat, filterIgnored, List.filter_cons]
    split
    · simp [h]
    · rfl
  · refine ⟨?_, ?_⟩
    · simp only [assembleBlog, filterIgnored, List.filter_cons, h2,
        Bool.not_false, if_true, List.map_cons]
    · simp [mkBlogPost, h]

/-- Witness for C2 (amended) at a concrete commit and environment. -/
theorem claim_C2_witness :
    getCommitImages (envNoImages.diff cNoImg.hash) = [] ∧
    jsStartsWith (jsToLower (titleOf cNoImg)) "[ignore]" = false ∧
    assembleGallery envNoImages [cNoImg] = assembleGallery envNoImages [] ∧
    assembleFlat envNoImages [cNoImg] = assembleFlat envNoImages [] ∧
    assembleBlog envNoImages [cNoImg]
      = mkBlogPost envNoImages cNoImg :: assembleBlog envNoImages [] ∧
    (mkBlogPost envNoImages cNoImg).images = [] := by
  have h1 := (claim_C2_amended envNoImages).2.1 cNoImg [] (by decide)
  have h2 := (claim_C2_amended envNoImages).2.2.1 cNoImg [] (by decide)
  have h3 := (claim_C2_amended envNoImages).2.2.2 cNoImg [] (by decide) (by decide)
  exact ⟨by decide, by decide, h1, h2, h3.1, h3.2⟩

/-! ## C10: the blog content fallback `commit.body || title` -/

/-- **C10 counterexample.** The claim says the content field is never empty
for a commit with a non-empty message.  `cNL` has the non-empty message
`"\nX"` and an empty body, so the fallback is the (empty) first line of the
message and the content field is empty. -/
theorem claim_C10_counterexample :
    cNL.message ≠ "" ∧ cNL.body = "" ∧
    (mkBlogPost envNoImages cNL).content = "" := by
  decide

/-- **C10 (amended).** In the blog variant the post content equals the body
when the body is non-empty and otherwise falls back to the title; it is
non-empty whenever the *first line* of the message is non-empty (not
whenever the message is non-empty). -/
theorem claim_C10_amended (env : Env) (c : Commit) :
    (c.body ≠ "" → (mkBlogPost env c).content = c.body) ∧
    (c.body = "" → (mkBlogPost env c).content = titleOf c) ∧
    (titleOf c ≠ "" → (mkBlogPost env c).content ≠ "") := by
  refine ⟨fun h => ?_, fun h => ?_, fun h => ?_⟩
  · simp [mkBlogPost, h]
  · simp [mkBlogPost, h]
  · by_cases hb : c.body = ""
    · simpa [mkBlogPost, hb] using h
    · simp [mkBlogPost, hb]

/-- Witness for C10 (amended) at the concrete commits `cGood` and `cNoImg`. -/
theorem claim_C10_witness :
    cGood.body ≠ "" ∧ (mkBlogPost envNoImages cGood).content = cGood.body ∧
    cNoImg.body = "" ∧ (mkBlogPost envNoImages cNoImg).content = titleOf cNoImg ∧
    titleOf cNoImg ≠ "" ∧ (mkBlogPost envNoImages cNoImg).content ≠ "" :=
  ⟨by decide, (claim_C10_amended envNoImages cGood).1 (by decide), by decide,
   (claim_C10_amended envNoImages cNoImg).2.1 (by decide), by decide,
   (claim_C10_amended envNoImages cNoImg).2.2 (by decide)⟩

/-! ## String lemmas for `escapeHTML` and `processContent` -/

theorem replList_eq_flatMap (p : Char) (repl : List Char) (l : List Char) :
    replList p repl l = l.flatMap (fun c => if c = p then repl else [c]) := by
  induction l with
  | nil => rfl
  | cons c rest ih => simp [replList, ih]

theorem string_data_mk (l : List Char) : (String.mk l).data = l := rfl

theorem string_mk_data (s : String) : String.mk s.data = s := rfl

theorem foldl_append_data (L : List String) :
    ∀ acc : String, (L.foldl (· ++ ·) acc).data = acc.data ++ (L.map String.data).flatten := by
  induction L with
  | nil => intro acc; simp
  | cons s L ih =>
    intro acc
    simp [List.foldl_cons, ih, String.data_append]

theorem string_join_data (L : List String) :
    (String.join L).data = (L.map String.data).flatten := by
  have h := foldl_append_data L ""
  simpa [String.join] using h

theorem string_join_cons (s : String) (L : List String) :
    String.join (s :: L) = s ++ String.join L := by
  apply String.ext
  simp [string_join_data, String.data_append]

/-- Composing the five replacement passes of `escapeHTML` on one character
equals the one-pass entity encoding: the `&` pass runs first, so the `&`
introduced by later entities is never re-escaped. -/
theorem escChar_step (c : Char) :
    ((if c = '&' then "&amp;".data else [c]).flatMap (fun c1 =>
      (if c1 = '<' then "&lt;".data else [c1]).flatMap (fun c2 =>
        (if c2 = '>' then "&gt;".data else [c2]).flatMap (fun c3 =>
          (if c3 = '"' then "&quot;".data else [c3]).flatMap (fun c4 =>
            if c4 = apos then "&#039;".data else [c4])))))
    = (escChar c).data := by
  by_cases h1 : c = '&'
  · subst h1; decide
  · by_cases h2 : c = '<'
    · subst h2; decide
    · by_cases h3 : c = '>'
      · subst h3; decide
      · by_cases h4 : c = '"'
        · subst h4; decide
        · by_cases h5 : c = apos
          · subst h5; decide
          · simp [h1, h2, h3, h4, h5, escChar]

/-- The character data of `escapeHTML` is the concatenation of the entity
encodings of the input characters. -/
theorem escapeHTML_data (s : String) :
    (escapeHTML (some s)).data = s.data.flatMap (fun c => (escChar c).data) := by
  by_cases hs : s = ""
  · subst hs; rfl
  · have hch : escapeHTML (some s) =
        String.mk (replList apos "&#039;".data
          (replList '"' "&quot;".data
            (replList '>' "&gt;".data
              (replList '<' "&lt;".data
                (replList '&' "&amp;".data s.data))))) := by
      simp only [escapeHTML, if_neg hs]
      rfl
    rw [hch, string_data_mk]
    rw [replList_eq_flatMap, replList_eq_flatMap, replList_eq_flatMap,
      replList_eq_flatMap, replList_eq_flatMap]
    rw [List.flatMap_assoc, List.flatMap_assoc, List.flatMap_assoc, List.flatMap_assoc]
    exact congrArg _ (funext escChar_step)

/-- `escapeHTML` agrees with the per-character entity encoding. -/
theorem escapeHTML_eq_spec (s : String) : escapeHTML (some s) = escapeHTMLSpec s := by
  apply String.ext
  rw [escapeHTML_data, escapeHTMLSpec, string_join_data, List.map_map, List.flatMap_def]
  rfl

/-- No raw `<`, `>`, `"` or `'` survives in the output of `escapeHTML`. -/
theorem escapeHTML_no_raw (s : String) :
    ((escapeHTML (some s)).data.all
      (fun c => !(c = '<' || c = '>' || c = '"' || c = apos))) = true := by
  rw [List.all_eq_true]
  intro c hc
  rw [escapeHTML_data] at hc
  obtain ⟨a, _, hca⟩ := List.mem_flatMap.mp hc
  by_cases h1 : a = '&'
  · rw [escChar, if_pos h1] at hca
    have hm : c ∈ ['&', 'a', 'm', 'p', ';'] := hca
    fin_cases hm <;> decide
  · by_cases h2 : a = '<'
    · rw [escChar, if_neg h1, if_pos h2] at hca
      have hm : c ∈ ['&', 'l', 't', ';'] := hca
      fin_cases hm <;> decide
    · by_cases h3 : a = '>'
      · rw [escChar, if_neg h1, if_neg h2, if_pos h3] at hca
        have hm : c ∈ ['&', 'g', 't', ';'] := hca
        fin_cases hm <;> decide
      · by_cases h4 : a = '"'
        · rw [escChar, if_neg h1, if_neg h2, if_neg h3, if_pos h4] at hca
          have hm : c ∈ ['&', 'q', 'u', 'o', 't', ';'] := hca
          fin_cases hm <;> decide
        · by_cases h5 : a = apos
          · rw [escChar, if_neg h1, if_neg h2, if_neg h3, if_neg h4, if_pos h5] at hca
            have hm : c ∈ ['&', '#', '0', '3', '9', ';'] := hca
            fin_cases hm <;> decide
          · rw [escChar, if_neg h1, if_neg h2, if_neg h3, if_neg h4, if_neg h5] at hca
            have hm : c ∈ [a] := hca
            rw [List.mem_singleton] at hm
            subst hm
            simp [h2, h3, h4, h5]

theorem wrap_ne_empty (x : String) : ("<p>" ++ x ++ "</p>") ≠ "" := by
  intro h
  have hd := congrArg String.data h
  rw [String.data_append, String.data_append] at hd
  have hp : ("<p>" : String).data = ['<', 'p', '>'] := rfl
  rw [hp] at hd
  simp at hd

/-- Dropping the empty strings before joining equals mapping the wrapper
over the non-empty paragraph texts only. -/
theorem join_filter_wrap (l : List String) :
    String.join ((l.map (fun t =>
      if t = "" then "" else "<p>" ++ escapeHTML (some t) ++ "</p>")).filter
        (fun p => p ≠ "")) =
    String.join ((l.filter (fun t => t ≠ "")).map
      (fun t => "<p>" ++ escapeHTML (some t) ++ "</p>")) := by
  induction l with
  | nil => rfl
  | cons a l ih =>
    by_cases ha : a = ""
    · subst ha
      simpa using ih
    · simp only [List.map_cons, if_neg ha, List.filter_cons]
      have hw := wrap_ne_empty (escapeHTML (some a))
      rw [if_pos (decide_eq_true hw), if_pos (decide_eq_true ha), List.map_cons,
        string_join_cons, string_join_cons, ih]

/-- `processContent` is the join of the escaped, `<p>`-wrapped paragraph
texts. -/
theorem processContent_paragraphs (content : String) :
    processContent content = String.join ((paragraphTexts content).map
      (fun t => "<p>" ++ escapeHTML (some t) ++ "</p>")) := by
  by_cases h : content = ""
  · subst h; rfl
  · simp only [processContent, if_neg h, paragraphTexts]
    have hm : (jsSplitNN content).map
        (fun para =>
          if jsTrim (jsReplaceAll para "\n" " ") = "" then ""
          else "<p>" ++ escapeHTML (some (jsTrim (jsReplaceAll para "\n" " "))) ++ "</p>")
        = ((jsSplitNN content).map (fun para => jsTrim (jsReplaceAll para "\n" " "))).map
            (fun t => if t = "" then "" else "<p>" ++ escapeHTML (some t) ++ "</p>") := by
      rw [List.map_map]
      rfl
    rw [hm]
    exact join_filter_wrap _

/-! ## Lemmas about `split(/\n\n+/)` on separator-free input -/

theorem splitNNF_of_not_hasNN :
    ∀ (fuel : Nat) (l acc : List Char), l.length ≤ fuel → hasNN l = false →
      splitNNF fuel l acc = [acc.reverse ++ l] := by
  intro fuel
  induction fuel with
  | zero =>
    intro l acc hlen _
    have hl : l = [] := List.length_eq_zero.mp (Nat.le_zero.mp hlen)
    subst hl
    simp [splitNNF]
  | succ fuel ih =>
    intro l acc hlen hnn
    cases l with
    | nil => simp [splitNNF]
    | cons c rest =>
      by_cases hc : c = '\n'
      · cases rest with
        | nil =>
          simp [splitNNF, hc]
        | cons c2 rest2 =>
          have hsplit : ((c = '\n' && c2 = '\n') || hasNN (c2 :: rest2)) = false := hnn
          rw [Bool.or_eq_false_iff] at hsplit
          have hc2 : ¬ c2 = '\n' := by
            intro h2
            rw [hc, h2] at hsplit
            simp at hsplit
          have hnn2 : hasNN (c2 :: rest2) = false := hsplit.2
          have hlen2 : (c2 :: rest2).length ≤ fuel := by
            simp only [List.length_cons] at hlen ⊢
            omega
          simp only [splitNNF, if_pos hc, if_neg hc2]
          rw [ih (c2 :: rest2) (c :: acc) hlen2 hnn2]
          simp [hc]
      · have hnnrest : hasNN rest = false := by
          cases rest with
          | nil => rfl
          | cons c2 rest2 =>
            have hsplit : ((c = '\n' && c2 = '\n') || hasNN (c2 :: rest2)) = false := hnn
            rw [Bool.or_eq_false_iff] at hsplit
            exact hsplit.2
        have hlenr : rest.length ≤ fuel := by
          simp only [List.length_cons] at hlen
          omega
        simp only [splitNNF, if_neg hc]
        rw [ih rest (c :: acc) hlenr hnnrest]
        simp

theorem jsSplitNN_of_not_hasNN (s : String) (h : hasNN s.data = false) :
    jsSplitNN s = [s] := by
  rw [jsSplitNN, splitNNF_of_not_hasNN s.data.length s.data [] Nat.le.refl h]
  simp [string_mk_data]

/-! ## C3: the paragraph formatter `processContent` -/

/-- **C3 counterexample.** The claim says an input with no double line break
yields exactly one paragraph.  The input `" "` has no double line break,
yet — because paragraphs that are empty after trimming are discarded — it
yields zero paragraphs (and an empty rendered content). -/
theorem claim_C3_counterexample :
    hasNN (" ").data = false ∧ paragraphTexts " " = [] ∧ processContent " " = "" := by
  decide

/-- **C3 (amended).** `processContent` splits on runs of two-or-more line
breaks, collapses the remaining single line breaks to spaces, trims, and
discards paragraphs that are empty after trimming; `"A\n\nB\nC"` yields
exactly the paragraphs `"A"` and `"B C"`; an input with no double line
break yields *at most* one paragraph — exactly one (its collapsed trimmed
text) when that text is non-empty, and zero when the input is whitespace.
The rendered content is the join of the escaped `<p>`-wrapped paragraphs. -/
theorem claim_C3_amended :
    paragraphTexts "A\n\nB\nC" = ["A", "B C"] ∧
    (∀ s, hasNN s.data = false → (paragraphTexts s).length ≤ 1) ∧
    (∀ s, hasNN s.data = false → jsTrim (jsReplaceAll s "\n" " ") ≠ "" →
      paragraphTexts s = [jsTrim (jsReplaceAll s "\n" " ")]) ∧
    (∀ content, processContent content = String.join ((paragraphTexts content).map
      (fun t => "<p>" ++ escapeHTML (some t) ++ "</p>"))) := by
  refine ⟨by decide, fun s h => ?_, fun s h ht => ?_, processContent_paragraphs⟩
  · rw [paragraphTexts, jsSplitNN_of_not_hasNN s h]
    by_cases hf : jsTrim (jsReplaceAll s "\n" " ") = "" <;>
      simp [List.filter_cons, hf]
  · rw [paragraphTexts, jsSplitNN_of_not_hasNN s h]
    simp [List.filter_cons, ht]

/-- Witness for C3 (amended) at the concrete input `"X\nY"`. -/
theorem claim_C3_witness :
    hasNN ("X\nY").data = false ∧
    (paragraphTexts "X\nY").length ≤ 1 ∧
    jsTrim (jsReplaceAll "X\nY" "\n" " ") ≠ "" ∧
    paragraphTexts "X\nY" = [jsTrim (jsReplaceAll "X\nY" "\n" " ")] :=
  ⟨by decide, claim_C3_amended.2.1 "X\nY" (by decide), by decide,
   claim_C3_amended.2.2.1 "X\nY" (by decide) (by decide)⟩

/-! ## C8: user-controlled text is escaped before insertion -/

/-- **C8.** In the blog-variant renderer every user-controlled value is
inserted only through escaping: `escapeHTML` is exactly the per-character
entity encoding of the five reserved characters `&`, `<`, `>`, `"`, `'`
(in particular no raw `<`, `>`, `"`, `'` survives escaping), the article
fragment factors through a template that receives the escaped title, the
escaped author, the processed content and the escaped image paths, and the
processed content is itself the join of escaped paragraph texts. -/
theorem claim_C8 :
    (∀ s, escapeHTML (some s) = escapeHTMLSpec s) ∧
    (∀ s, ((escapeHTML (some s)).data.all
      (fun c => !(c = '<' || c = '>' || c = '"' || c = apos))) = true) ∧
    (∀ p : BlogPost, postArticleHTML p =
      postArticleTemplate (escapeHTML (some p.title)) (escapeHTML (some p.author))
        p.date p.hash (processContent p.content)
        (p.images.map (fun i => escapeHTML (some i)))) ∧
    (∀ content, processContent content = String.join ((paragraphTexts content).map
      (fun t => "<p>" ++ escapeHTML (some t) ++ "</p>"))) := by
  refine ⟨escapeHTML_eq_spec, escapeHTML_no_raw, fun p => ?_, processContent_paragraphs⟩
  simp only [postArticleHTML, postArticleTemplate, List.map_map, List.length_map]
  rfl

/-! ## C9: `escapeHTML` maps falsy input to the empty string -/

/-- **C9.** `escapeHTML` returns the empty string for every falsy input —
`null`/`undefined` (modelled as `none`) and the empty string — rather than
raising or propagating a sentinel into the document. -/
theorem claim_C9 : escapeHTML none = "" ∧ escapeHTML (some "") = "" :=
  ⟨rfl, rfl⟩

end ImgBlog
